import Mathlib

/-!
Verification development for the tarot-oracle-bot core engine
(`src/tarot_core.py`): deck registry, spread registry, seed
normalization, Fisher-Yates shuffling and the `draw_cards` entry point,
shallowly embedded in Lean 4, together with theorems settling the
specification claims.
-/

set_option maxRecDepth 4096

namespace TarotCore

/-- A dynamically-typed Python value, restricted to the shapes a caller can
pass as the `seed` argument: `None`, `int`, `str`, or some other type
(represented here by `float`), which `_norm_seed` rejects. -/
inductive PyVal where
  | none : PyVal
  | int (n : Int) : PyVal
  | str (s : String) : PyVal
  | float (q : ℚ) : PyVal
deriving DecidableEq

/-- The error classes of `tarot_core.py`: `InvalidSpreadError` (spread id not
registered, or card-count mismatch) and `InvalidParameterError`, each
carrying its message. -/
inductive TarotError where
  | invalidSpread (msg : String) : TarotError
  | invalidParameter (msg : String) : TarotError
deriving DecidableEq

/-- The exception class (kind) of an error, forgetting the message. -/
inductive ErrKind where
  | invalidSpread : ErrKind
  | invalidParameter : ErrKind
deriving DecidableEq

/-- Map an error value to its class. -/
def TarotError.kind : TarotError → ErrKind
  | .invalidSpread _ => ErrKind.invalidSpread
  | .invalidParameter _ => ErrKind.invalidParameter

/-- Card orientation: `"upright"` or `"reversed"`. -/
inductive Orientation where
  | upright : Orientation
  | reversed : Orientation
deriving DecidableEq

/-- `DrawnCard` record: a single drawn card as serialized by the engine. -/
structure DrawnCard where
  card_id : String
  card_name : String
  suit : String
  rank : String
  orientation : Orientation
  position : Option String
  index : Nat
deriving DecidableEq

/-- `SpreadDef` record: spread id, display name, ordered position labels. -/
structure SpreadDef where
  id : String
  name : String
  positions : List String
deriving DecidableEq

/-- `CardDef` dataclass: card id, display name, suit, rank. -/
structure CardDef where
  id : String
  name : String
  suit : String
  rank : String
deriving DecidableEq

/-- The dict returned by `draw_cards`. -/
structure DrawResult where
  seed : Option Int
  spread : Option String
  deck_type : String
  num_cards : Int
  orientation_prob : ℚ
  cards : List DrawnCard
deriving DecidableEq

/-! ## SHA-256 (model of `hashlib.sha256`), over lists of byte values -/

/-- 2^32, the modulus for 32-bit words. -/
def M32 : Nat := 4294967296

/-- Right rotation of a 32-bit word by `n` bits. -/
def rotr32 (n x : Nat) : Nat := ((x >>> n) ||| (x <<< (32 - n))) % M32

/-- SHA-256 small sigma 0. -/
def ssig0 (x : Nat) : Nat := (rotr32 7 x) ^^^ (rotr32 18 x) ^^^ (x >>> 3)

/-- SHA-256 small sigma 1. -/
def ssig1 (x : Nat) : Nat := (rotr32 17 x) ^^^ (rotr32 19 x) ^^^ (x >>> 10)

/-- SHA-256 big sigma 0. -/
def bsig0 (x : Nat) : Nat := (rotr32 2 x) ^^^ (rotr32 13 x) ^^^ (rotr32 22 x)

/-- SHA-256 big sigma 1. -/
def bsig1 (x : Nat) : Nat := (rotr32 6 x) ^^^ (rotr32 11 x) ^^^ (rotr32 25 x)

/-- The 64 SHA-256 round constants. -/
def shaK : List Nat :=
  [1116352408, 1899447441, 3049323471, 3921009573, 961987163, 1508970993,
   2453635748, 2870763221, 3624381080, 310598401, 607225278, 1426881987,
   1925078388, 2162078206, 2614888103, 3248222580, 3835390401, 4022224774,
   264347078, 604807628, 770255983, 1249150122, 1555081692, 1996064986,
   2554220882, 2821834349, 2952996808, 3210313671, 3336571891, 3584528711,
   113926993, 338241895, 666307205, 773529912, 1294757372, 1396182291,
   1695183700, 1986661051, 2177026350, 2456956037, 2730485921, 2820302411,
   3259730800, 3345764771, 3516065817, 3600352804, 4094571909, 275423344,
   430227734, 506948616, 659060556, 883997877, 958139571, 1322822218,
   1537002063, 1747873779, 1955562222, 2024104815, 2227730452, 2361852424,
   2428436474, 2756734187, 3204031479, 3329325298]

/-- The SHA-256 initial hash state. -/
def shaH0 : List Nat :=
  [1779033703, 3144134277, 1013904242, 2773480762,
   1359893119, 2600822924, 528734635, 1541459225]

/-- Group a byte list into big-endian 32-bit words (drops a trailing
incomplete group; padded input is always a multiple of 4 bytes). -/
def bytesToWords : List Nat → List Nat
  | b0 :: b1 :: b2 :: b3 :: rest =>
      (((b0 * 256 + b1) * 256 + b2) * 256 + b3) :: bytesToWords rest
  | _ => []

/-- Extend a 16-word block to the full 64-word message schedule:
`buildSched w16 n` appends `n` schedule words. -/
def buildSched (w16 : List Nat) : Nat → List Nat
  | 0 => w16
  | n + 1 =>
      let prev := buildSched w16 n
      let m := prev.length
      prev ++ [(ssig1 (prev.getD (m - 2) 0) + prev.getD (m - 7) 0 +
                ssig0 (prev.getD (m - 15) 0) + prev.getD (m - 16) 0) % M32]

/-- One SHA-256 compression round on the 8-word working state. -/
def shaRound (st : List Nat) (kw : Nat × Nat) : List Nat :=
  match st with
  | [a, b, c, d, e, f, g, h] =>
      let ch := (e &&& f) ^^^ ((e ^^^ (M32 - 1)) &&& g)
      let maj := (a &&& b) ^^^ (a &&& c) ^^^ (b &&& c)
      let t1 := (h + bsig1 e + ch + kw.1 + kw.2) % M32
      let t2 := (bsig0 a + maj) % M32
      [(t1 + t2) % M32, a, b, c, (d + t1) % M32, e, f, g]
  | other => other

/-- Compress one 16-word block into the running hash state. -/
def shaCompress (hst : List Nat) (block : List Nat) : List Nat :=
  let w := buildSched block 48
  let st := (shaK.zip w).foldl shaRound hst
  (hst.zip st).map (fun p => (p.1 + p.2) % M32)

/-- Split a word list into 16-word blocks. -/
def chunk16 : List Nat → List (List Nat)
  | w0 :: w1 :: w2 :: w3 :: w4 :: w5 :: w6 :: w7 ::
    w8 :: w9 :: w10 :: w11 :: w12 :: w13 :: w14 :: w15 :: rest =>
      [w0, w1, w2, w3, w4, w5, w6, w7, w8, w9, w10, w11, w12, w13, w14, w15] :: chunk16 rest
  | _ => []

/-- Big-endian byte expansion of a value into `k` bytes. -/
def natToBytesBE : Nat → Nat → List Nat
  | 0, _ => []
  | k + 1, v => natToBytesBE k (v / 256) ++ [v % 256]

/-- SHA-256 message padding: append `0x80`, zeros to 56 mod 64 bytes, then
the 8-byte big-endian bit length. -/
def shaPad (msg : List Nat) : List Nat :=
  msg ++ [0x80] ++ List.replicate ((119 - msg.length % 64) % 64) 0 ++
    natToBytesBE 8 (msg.length * 8)

/-- SHA-256 digest of a byte list, as a list of 32 byte values. -/
def sha256 (msg : List Nat) : List Nat :=
  ((chunk16 (bytesToWords (shaPad msg))).foldl shaCompress shaH0).flatMap (natToBytesBE 4)

/-- UTF-8 encoding of a Unicode code point (model of `str.encode`). -/
def encodeCharUtf8 (c : Nat) : List Nat :=
  if c < 0x80 then [c]
  else if c < 0x800 then [0xC0 + c / 64, 0x80 + c % 64]
  else if c < 0x10000 then [0xE0 + c / 4096, 0x80 + (c / 64) % 64, 0x80 + c % 64]
  else [0xF0 + c / 262144, 0x80 + (c / 4096) % 64, 0x80 + (c / 64) % 64, 0x80 + c % 64]

/-- UTF-8 byte sequence of a string (model of `seed.encode("utf-8")`). -/
def utf8Bytes (s : String) : List Nat := s.data.flatMap (fun ch => encodeCharUtf8 ch.toNat)

/-- Model of `int.from_bytes(bs, byteorder="big", signed=False)`. -/
def intFromBytesBE (bs : List Nat) : Nat := bs.foldl (fun acc b => acc * 256 + b) 0

/-- SHA-256 test vector: digest of `"abc"`. -/
example : sha256 (utf8Bytes "abc") =
    [0xba, 0x78, 0x16, 0xbf, 0x8f, 0x01, 0xcf, 0xea, 0x41, 0x41, 0x40, 0xde, 0x5d, 0xae, 0x22, 0x23,
     0xb0, 0x03, 0x61, 0xa3, 0x96, 0x17, 0x7a, 0x9c, 0xb4, 0x10, 0xff, 0x61, 0xf2, 0x00, 0x15, 0xad] := by
  decide

/-- SHA-256 test vector: digest of the empty message. -/
example : sha256 [] =
    [0xe3, 0xb0, 0xc4, 0x42, 0x98, 0xfc, 0x1c, 0x14, 0x9a, 0xfb, 0xf4, 0xc8, 0x99, 0x6f, 0xb9, 0x24,
     0x27, 0xae, 0x41, 0xe4, 0x64, 0x9b, 0x93, 0x4c, 0xa4, 0x95, 0x99, 0x1b, 0x78, 0x52, 0xb8, 0x55] := by
  decide

/-! ## Spread registry -/

/-- The ASCII apostrophe as a one-character string. -/
def sq : String := String.singleton (Char.ofNat 39)

/-- `SPREAD_REGISTRY`: the module-level dict of predefined spreads, as an
association list in source insertion order. -/
def SPREAD_REGISTRY : List (String × SpreadDef) :=
  [("single",
    { id := "single", name := "Single Card", positions := ["focus"] }),
   ("three_card",
    { id := "three_card", name := "Three Card (Past / Present / Future)",
      positions := ["past", "present", "future"] }),
   ("five_card",
    { id := "five_card", name := "Five Card (Issue / Action / Obstacle / Resource / Outcome)",
      positions := ["issue", "action", "obstacle", "resource", "outcome"] }),
   ("celtic_cross",
    { id := "celtic_cross", name := "Celtic Cross (10)",
      positions := ["situation", "challenge", "subconscious", "past", "conscious",
                    "near_future", "self", "environment", "hopes_fears", "outcome"] })]

/-- Dict lookup by key (first matching key, as with unique-key dicts). -/
def assocLookup {α : Type} : List (String × α) → String → Option α
  | [], _ => Option.none
  | (k, v) :: rest, key => if k = key then some v else assocLookup rest key

/-- `list_spreads`: all registered spreads, in registry order. -/
def list_spreads : List SpreadDef := SPREAD_REGISTRY.map Prod.snd

/-- `get_spread`: look a spread id up, raising `InvalidSpreadError` when it
is not registered. -/
def get_spread (spread_id : String) : Except TarotError SpreadDef :=
  match assocLookup SPREAD_REGISTRY spread_id with
  | Option.none =>
      Except.error (TarotError.invalidSpread
        ("Spread " ++ sq ++ spread_id ++ sq ++ " is not registered."))
  | some sd => Except.ok sd

/-! ## RWS 78-card deck registry -/

/-- `_slug`: lowercase and normalize a display name into an id fragment. -/
def _slug (s : String) : String :=
  ((((s.toLower).replace " " "_").replace "-" "_").replace "’" "").replace sq ""

/-- Zero-padded two-digit rendering of a major-arcana number (`f"{i:02d}"`). -/
def pad2 (n : Nat) : String := if n < 10 then "0" ++ toString n else toString n

/-- The 22 major-arcana display names, in order. -/
def majors : List String :=
  ["The Fool", "The Magician", "The High Priestess", "The Empress",
   "The Emperor", "The Hierophant", "The Lovers", "The Chariot",
   "Strength", "The Hermit", "Wheel of Fortune", "Justice",
   "The Hanged Man", "Death", "Temperance", "The Devil",
   "The Tower", "The Star", "The Moon", "The Sun",
   "Judgement", "The World"]

/-- The four minor suits as (key, display name). -/
def suits : List (String × String) :=
  [("wands", "Wands"), ("cups", "Cups"), ("swords", "Swords"), ("pentacles", "Pentacles")]

/-- The fourteen minor ranks as (key, display name). -/
def ranks : List (String × String) :=
  [("ace", "Ace"), ("2", "Two"), ("3", "Three"), ("4", "Four"), ("5", "Five"),
   ("6", "Six"), ("7", "Seven"), ("8", "Eight"), ("9", "Nine"), ("10", "Ten"),
   ("page", "Page"), ("knight", "Knight"), ("queen", "Queen"), ("king", "King")]

/-- `_build_rws_registry`: the RWS 78-card registry in its stable order —
22 majors followed by the 4 suits times 14 ranks. -/
def _build_rws_registry : List CardDef :=
  (majors.enum.map (fun p =>
    { id := "major_" ++ pad2 p.1 ++ "_" ++ _slug p.2,
      name := p.2, suit := "major", rank := toString p.1 })) ++
  (suits.flatMap (fun su => ranks.map (fun rk =>
    { id := "minor_" ++ su.1 ++ "_" ++ rk.1,
      name := rk.2 ++ " of " ++ su.2, suit := su.1, rank := rk.1 })))

/-- `CARD_REGISTRY`: the module-level card registry. -/
def CARD_REGISTRY : List CardDef := _build_rws_registry

/-- `CARD_ID_INDEX`: dict from card id to its index in `CARD_REGISTRY`. -/
def dictIndex : List CardDef → String → Option Nat
  | [], _ => Option.none
  | c :: rest, cid => if c.id = cid then some 0 else (dictIndex rest cid).map (· + 1)

/-- Lookup in `CARD_ID_INDEX` (`CARD_ID_INDEX.get(card_id)`). -/
def CARD_ID_INDEX (cid : String) : Option Nat := dictIndex CARD_REGISTRY cid

/-- The startup assertion of the source: the registry holds exactly 78 cards. -/
theorem card_registry_length : CARD_REGISTRY.length = 78 := by decide

/-- `build_deck`: ordered card ids for a deck type; only `"rws"` is
supported, anything else raises `InvalidParameterError`. -/
def build_deck (deck_type : String) : Except TarotError (List String) :=
  if deck_type ≠ "rws" then
    Except.error (TarotError.invalidParameter ("Unsupported deck_type: " ++ deck_type))
  else Except.ok (CARD_REGISTRY.map CardDef.id)

/-! ## RNG interface and seed normalization -/

/-- An implementation of the Python class `random.Random`: a state type, seeded
initialization, `randint(lo, hi)` and `random()`. The unseeded
(`Random(None)`) path is modelled by an externally supplied entropy state. -/
structure PRNG where
  σ : Type
  seedInit : Int → σ
  randint : σ → Nat → Nat → Nat × σ
  randFloat : σ → ℚ × σ

/-- Well-formedness of a `PRNG` implementation: `randint s lo hi` lands in
`[lo, hi]` and `random()` lands in `[0, 1)`. -/
def PRNG.WF (P : PRNG) : Prop :=
  (∀ s lo hi, lo ≤ hi → lo ≤ (P.randint s lo hi).1 ∧ (P.randint s lo hi).1 ≤ hi) ∧
  (∀ s, 0 ≤ (P.randFloat s).1 ∧ (P.randFloat s).1 < 1)

/-- `_norm_seed`: `None` stays `None`; an `int` passes through; a `str` is
hashed with SHA-256 and its first 8 digest bytes are read as a big-endian
unsigned 64-bit integer; any other type raises `InvalidParameterError`. -/
def _norm_seed : PyVal → Except TarotError (Option Int)
  | PyVal.none => Except.ok Option.none
  | PyVal.int n => Except.ok (some n)
  | PyVal.str s =>
      Except.ok (some (Int.ofNat (intFromBytesBE ((sha256 (utf8Bytes s)).take 8))))
  | _ => Except.error (TarotError.invalidParameter "seed must be int | str | None")

/-- Whether a seed value has one of the accepted types. -/
def PyVal.seedOk : PyVal → Bool
  | PyVal.float _ => false
  | _ => true

/-! ## Fisher-Yates shuffle -/

/-- Swap two positions of a list (the simultaneous assignment
`arr[i], arr[j] = arr[j], arr[i]`); out-of-range indices leave the list
unchanged (unreachable in the engine). -/
def listSwap {α : Type} (l : List α) (i j : Nat) : List α :=
  match l.get? i, l.get? j with
  | some a, some b => (l.set i b).set j a
  | _, _ => l

/-- The loop of `_fisher_yates_shuffle`: `fyAux P i arr s` runs the
remaining steps at indices `i, i-1, ..., 1`. -/
def fyAux (P : PRNG) : Nat → List String → P.σ → List String × P.σ
  | 0, arr, s => (arr, s)
  | i + 1, arr, s =>
      let js := P.randint s 0 (i + 1)
      fyAux P i (listSwap arr (i + 1) js.1) js.2

/-- `_fisher_yates_shuffle`: Fisher-Yates (Knuth) shuffle over a fresh copy
of the input, from the last index down to index 1. -/
def _fisher_yates_shuffle (P : PRNG) (items : List String) (s : P.σ) : List String × P.σ :=
  fyAux P (items.length - 1) items s

/-- `random.Random(norm)`: a deterministic state for an integer seed, the
ambient entropy state for `None`. -/
def seedRng (P : PRNG) (entropy : P.σ) : Option Int → P.σ
  | Option.none => entropy
  | some k => P.seedInit k

/-- `shuffle_deck`: normalize the seed, build the generator, shuffle. -/
def shuffle_deck (P : PRNG) (entropy : P.σ) (deck : List String) (seed : PyVal) :
    Except TarotError (List String) :=
  match _norm_seed seed with
  | Except.error e => Except.error e
  | Except.ok norm =>
      let rng := seedRng P entropy norm
      Except.ok (_fisher_yates_shuffle P deck rng).1

/-- The trace of the shuffle loop: the (i, j) pair of every swap step, in
execution order. -/
def fyTrace (P : PRNG) : Nat → List String → P.σ → List (Nat × Nat)
  | 0, _, _ => []
  | i + 1, arr, s =>
      let js := P.randint s 0 (i + 1)
      (i + 1, js.1) :: fyTrace P i (listSwap arr (i + 1) js.1) js.2

/-- Apply a list of swap steps in order. -/
def applySwaps {α : Type} : List (Nat × Nat) → List α → List α
  | [], arr => arr
  | (i, j) :: rest, arr => applySwaps rest (listSwap arr i j)

/-- `countdown n = [n, n-1, ..., 1]`. -/
def countdown : Nat → List Nat
  | 0 => []
  | n + 1 => (n + 1) :: countdown n

/-! ## Draw -/

/-- `_serialize_drawn_card`: resolve the card id in the registry and bundle
the metadata; an unresolvable id yields the placeholder record. -/
def _serialize_drawn_card (card_id : String) (orientation : Orientation)
    (position : Option String) (index : Nat) : DrawnCard :=
  match CARD_ID_INDEX card_id with
  | Option.none =>
      { card_id := card_id, card_name := card_id, suit := "major", rank := "?",
        orientation := orientation, position := position, index := index }
  | some idx =>
      let c := CARD_REGISTRY.getD idx { id := "", name := "", suit := "", rank := "" }
      { card_id := c.id, card_name := c.name, suit := c.suit, rank := c.rank,
        orientation := orientation, position := position, index := index }

/-- The position bound to draw index `idx`: the label of the spread there when a
spread is in use (`spread_def["positions"][idx]`), else `None`. -/
def assignPos : Option SpreadDef → Nat → Option String
  | some sd, idx => sd.positions.get? idx
  | Option.none, _ => Option.none

/-- The per-card loop of `draw_cards`: draw one uniform real per card (in
index order), decide its orientation by strict comparison against
`orientation_prob`, bind the spread position, and serialize. -/
def assignCards (P : PRNG) (spread_def : Option SpreadDef) (orientation_prob : ℚ) :
    List String → Nat → P.σ → List DrawnCard × P.σ
  | [], _, s => ([], s)
  | cid :: rest, idx, s =>
      let rs := P.randFloat s
      let orient := if rs.1 < orientation_prob then Orientation.reversed else Orientation.upright
      let pos := assignPos spread_def idx
      let tail := assignCards P spread_def orientation_prob rest (idx + 1) rs.2
      (_serialize_drawn_card cid orient pos idx :: tail.1, tail.2)

/-- The spread-resolution step of `draw_cards`: no spread, or a registered
spread whose position count must equal `num_cards`. -/
def resolveSpread : Option String → Int → Except TarotError (Option SpreadDef)
  | Option.none, _ => Except.ok Option.none
  | some spid, num_cards =>
      match get_spread spid with
      | Except.error e => Except.error e
      | Except.ok sd =>
          if (sd.positions.length : Int) ≠ num_cards then
            Except.error (TarotError.invalidSpread
              ("Spread " ++ sq ++ spid ++ sq ++ " expects " ++
               toString sd.positions.length ++ " cards, got " ++ toString num_cards))
          else Except.ok (some sd)

/-- `draw_cards`: validate, shuffle, pick the first `num_cards`, assign
orientations and positions, and assemble the result dict. -/
def draw_cards (P : PRNG) (entropy : P.σ) (num_cards : Int) (spread : Option String)
    (seed : PyVal) (orientation_prob : ℚ) (deck_type : String) :
    Except TarotError DrawResult :=
  if num_cards ≤ 0 then
    Except.error (TarotError.invalidParameter "num_cards must be a positive integer")
  else if ¬ (0 ≤ orientation_prob ∧ orientation_prob ≤ 1) then
    Except.error (TarotError.invalidParameter "orientation_prob must be within [0.0, 1.0]")
  else
    match build_deck deck_type with
    | Except.error e => Except.error e
    | Except.ok deck =>
        if (deck.length : Int) < num_cards then
          Except.error (TarotError.invalidParameter
            ("num_cards cannot exceed deck size (78); got " ++ toString num_cards))
        else
          match resolveSpread spread num_cards with
          | Except.error e => Except.error e
          | Except.ok spread_def =>
              match _norm_seed seed with
              | Except.error e => Except.error e
              | Except.ok norm =>
                  let rng := seedRng P entropy norm
                  let shuffled := _fisher_yates_shuffle P deck rng
                  let picked := shuffled.1.take num_cards.toNat
                  let assigned := assignCards P spread_def orientation_prob picked 0 shuffled.2
                  Except.ok
                    { seed := norm,
                      spread := spread_def.map SpreadDef.id,
                      deck_type := deck_type,
                      num_cards := num_cards,
                      orientation_prob := orientation_prob,
                      cards := assigned.1 }

/-! ## Concrete PRNG instances (used to exercise the theorems) -/

/-- A trivial well-formed generator: `randint` returns `lo`, `random()`
returns `0`. -/
def constPRNG : PRNG :=
  { σ := Unit, seedInit := fun _ => (),
    randint := fun s lo _ => (lo, s),
    randFloat := fun s => (0, s) }

/-- A generator whose unseeded behaviour depends on a boolean entropy
state, for exercising the determinism theorem. -/
def boolPRNG : PRNG :=
  { σ := Bool, seedInit := fun _ => false,
    randint := fun s lo hi => (if s then hi else lo, s),
    randFloat := fun s => (if s then (1 : ℚ) / 2 else 0, s) }

/-- Whether an `Except` value is a success. -/
def exceptIsOk {ε α : Type} : Except ε α → Bool
  | Except.ok _ => true
  | Except.error _ => false

/-! ## Permutation lemmas for the swap step -/

theorem set_cons_perm {α : Type} (b c : α) :
    ∀ (l : List α) (k : Nat), l.get? k = some b → (b :: l.set k c).Perm (c :: l)
  | [], k, h => by simp at h
  | x :: xs, 0, h => by
      rw [List.get?_cons_zero] at h
      injection h with h
      subst h
      exact List.Perm.swap c x xs
  | x :: xs, k + 1, h => by
      rw [List.get?_cons_succ] at h
      have ih := set_cons_perm b c xs k h
      show (b :: x :: xs.set k c).Perm (c :: x :: xs)
      exact (List.Perm.swap x b (xs.set k c)).trans
        ((ih.cons x).trans (List.Perm.swap c x xs))

theorem double_set_perm {α : Type} :
    ∀ (l : List α) (i j : Nat) (a b : α), l.get? i = some a → l.get? j = some b →
      ((l.set i b).set j a).Perm l
  | [], i, j, a, b, hi, _ => by simp at hi
  | x :: xs, 0, 0, a, b, hi, hj => by
      rw [List.get?_cons_zero] at hi hj
      injection hi with hi
      injection hj with hj
      subst hi
      subst hj
      exact List.Perm.refl (x :: xs)
  | x :: xs, 0, j + 1, a, b, hi, hj => by
      rw [List.get?_cons_zero] at hi
      rw [List.get?_cons_succ] at hj
      injection hi with hi
      subst hi
      exact set_cons_perm b x xs j hj
  | x :: xs, i + 1, 0, a, b, hi, hj => by
      rw [List.get?_cons_succ] at hi
      rw [List.get?_cons_zero] at hj
      injection hj with hj
      subst hj
      exact set_cons_perm a x xs i hi
  | x :: xs, i + 1, j + 1, a, b, hi, hj => by
      rw [List.get?_cons_succ] at hi hj
      exact (double_set_perm xs i j a b hi hj).cons x

/-- A swap step always yields a permutation of the list. -/
theorem listSwap_perm {α : Type} (l : List α) (i j : Nat) : (listSwap l i j).Perm l := by
  unfold listSwap
  split
  · exact double_set_perm l i j _ _ (by assumption) (by assumption)
  · exact List.Perm.refl l

/-! ## Fisher-Yates lemmas -/

theorem fyAux_perm (P : PRNG) :
    ∀ (i : Nat) (arr : List String) (s : P.σ), ((fyAux P i arr s).1).Perm arr
  | 0, arr, _ => List.Perm.refl arr
  | i + 1, arr, s => by
      show ((fyAux P i (listSwap arr (i + 1) (P.randint s 0 (i + 1)).1)
              (P.randint s 0 (i + 1)).2).1).Perm arr
      exact (fyAux_perm P i _ _).trans (listSwap_perm arr (i + 1) _)

/-- The shuffle output is a permutation of the input. -/
theorem fisher_yates_perm (P : PRNG) (items : List String) (s : P.σ) :
    ((_fisher_yates_shuffle P items s).1).Perm items :=
  fyAux_perm P (items.length - 1) items s

theorem fyAux_eq_applySwaps (P : PRNG) :
    ∀ (i : Nat) (arr : List String) (s : P.σ),
      (fyAux P i arr s).1 = applySwaps (fyTrace P i arr s) arr
  | 0, _, _ => rfl
  | i + 1, arr, s => by
      show (fyAux P i (listSwap arr (i + 1) (P.randint s 0 (i + 1)).1)
              (P.randint s 0 (i + 1)).2).1 =
        applySwaps ((i + 1, (P.randint s 0 (i + 1)).1) ::
          fyTrace P i (listSwap arr (i + 1) (P.randint s 0 (i + 1)).1)
            (P.randint s 0 (i + 1)).2) arr
      exact fyAux_eq_applySwaps P i _ _

theorem fyTrace_map_fst (P : PRNG) :
    ∀ (i : Nat) (arr : List String) (s : P.σ),
      (fyTrace P i arr s).map Prod.fst = countdown i
  | 0, _, _ => rfl
  | i + 1, arr, s => by
      show (i + 1) :: (fyTrace P i (listSwap arr (i + 1) (P.randint s 0 (i + 1)).1)
              (P.randint s 0 (i + 1)).2).map Prod.fst = (i + 1) :: countdown i
      rw [fyTrace_map_fst P i]

theorem fyTrace_snd_le (P : PRNG) (hwf : P.WF) :
    ∀ (i : Nat) (arr : List String) (s : P.σ),
      ∀ p ∈ fyTrace P i arr s, p.2 ≤ p.1
  | 0, _, _ => by simp [fyTrace]
  | i + 1, arr, s => by
      intro p hp
      rw [show fyTrace P (i + 1) arr s = (i + 1, (P.randint s 0 (i + 1)).1) ::
            fyTrace P i (listSwap arr (i + 1) (P.randint s 0 (i + 1)).1)
              (P.randint s 0 (i + 1)).2 from rfl] at hp
      rcases List.mem_cons.mp hp with h | h
      · subst h
        exact (hwf.1 s 0 (i + 1) (Nat.zero_le _)).2
      · exact fyTrace_snd_le P hwf i _ _ p h

theorem countdown_chain : ∀ n : Nat, List.Chain' (fun a b => b < a) (countdown n)
  | 0 => List.chain'_nil
  | 1 => by simp [countdown]
  | n + 2 => by
      rw [show countdown (n + 2) = (n + 2) :: (n + 1) :: countdown n from rfl]
      exact List.Chain'.cons (by omega)
        (by rw [show (n + 1) :: countdown n = countdown (n + 1) from rfl]
            exact countdown_chain (n + 1))

/-! ## Registry lookup lemmas -/

theorem dictIndex_some {cid : String} :
    ∀ {l : List CardDef} {k : Nat}, dictIndex l cid = some k →
      ∃ c, l.get? k = some c ∧ c.id = cid
  | [], k, h => by simp [dictIndex] at h
  | c :: rest, k, h => by
      unfold dictIndex at h
      split at h
      · rename_i hc
        cases h
        exact ⟨c, rfl, hc⟩
      · cases hrec : dictIndex rest cid with
        | none => rw [hrec] at h; simp at h
        | some k0 =>
            rw [hrec] at h
            simp at h
            obtain ⟨c0, hc0, hid⟩ := dictIndex_some hrec
            subst h
            exact ⟨c0, hc0, hid⟩

theorem dictIndex_resolves {cid : String} :
    ∀ {l : List CardDef}, cid ∈ l.map CardDef.id →
      ∃ k, dictIndex l cid = some k
  | [], h => by simp at h
  | c :: rest, h => by
      unfold dictIndex
      split
      · exact ⟨0, rfl⟩
      · rename_i hc
        rcases List.mem_map.mp h with ⟨c0, hc0, hid⟩
        rcases List.mem_cons.mp hc0 with h0 | h0
        · subst h0; exact absurd hid hc
        · obtain ⟨k, hk⟩ := dictIndex_resolves (List.mem_map.mpr ⟨c0, h0, hid⟩)
          exact ⟨k + 1, by rw [hk]; rfl⟩

/-! ## Serialization lemmas -/

theorem serialize_card_id (cid : String) (o : Orientation) (pos : Option String) (i : Nat) :
    (_serialize_drawn_card cid o pos i).card_id = cid := by
  unfold _serialize_drawn_card
  cases hidx : CARD_ID_INDEX cid with
  | none => rfl
  | some idx =>
      obtain ⟨c, hc, hid⟩ := dictIndex_some hidx
      show (CARD_REGISTRY.getD idx { id := "", name := "", suit := "", rank := "" }).id = cid
      rw [List.getD_eq_getElem?_getD, ← List.get?_eq_getElem?, hc]
      exact hid

theorem serialize_orientation (cid : String) (o : Orientation) (pos : Option String) (i : Nat) :
    (_serialize_drawn_card cid o pos i).orientation = o := by
  unfold _serialize_drawn_card
  cases CARD_ID_INDEX cid <;> rfl

theorem serialize_position (cid : String) (o : Orientation) (pos : Option String) (i : Nat) :
    (_serialize_drawn_card cid o pos i).position = pos := by
  unfold _serialize_drawn_card
  cases CARD_ID_INDEX cid <;> rfl

theorem serialize_index (cid : String) (o : Orientation) (pos : Option String) (i : Nat) :
    (_serialize_drawn_card cid o pos i).index = i := by
  unfold _serialize_drawn_card
  cases CARD_ID_INDEX cid <;> rfl

/-- When the id resolves to index `k`, serialization reads the registry
entry at `k`. -/
theorem serialize_eq_of_index {cid : String} {k : Nat} (hk : CARD_ID_INDEX cid = some k)
    (o : Orientation) (pos : Option String) (i : Nat) :
    _serialize_drawn_card cid o pos i =
      { card_id := (CARD_REGISTRY.getD k { id := "", name := "", suit := "", rank := "" }).id,
        card_name := (CARD_REGISTRY.getD k { id := "", name := "", suit := "", rank := "" }).name,
        suit := (CARD_REGISTRY.getD k { id := "", name := "", suit := "", rank := "" }).suit,
        rank := (CARD_REGISTRY.getD k { id := "", name := "", suit := "", rank := "" }).rank,
        orientation := o, position := pos, index := i } := by
  unfold _serialize_drawn_card
  rw [hk]

/-- A card id that resolves in the registry is serialized from its registry
entry, never from the placeholder. -/
theorem serialize_resolved (cid : String) (o : Orientation) (pos : Option String) (i : Nat)
    (hmem : cid ∈ CARD_REGISTRY.map CardDef.id) :
    ∃ cd, cd ∈ CARD_REGISTRY ∧
      (_serialize_drawn_card cid o pos i).card_id = cd.id ∧
      (_serialize_drawn_card cid o pos i).card_name = cd.name ∧
      (_serialize_drawn_card cid o pos i).suit = cd.suit ∧
      (_serialize_drawn_card cid o pos i).rank = cd.rank := by
  obtain ⟨k, hk⟩ := dictIndex_resolves hmem
  obtain ⟨c, hc, _⟩ := dictIndex_some hk
  have hgd : CARD_REGISTRY.getD k { id := "", name := "", suit := "", rank := "" } = c := by
    rw [List.getD_eq_getElem?_getD, ← List.get?_eq_getElem?, hc]
    rfl
  rw [serialize_eq_of_index hk, hgd]
  exact ⟨c, List.get?_mem hc, rfl, rfl, rfl, rfl⟩

/-! ## assignCards lemmas -/

theorem assignCards_length (P : PRNG) (sp : Option SpreadDef) (prob : ℚ) :
    ∀ (l : List String) (idx : Nat) (s : P.σ),
      ((assignCards P sp prob l idx s).1).length = l.length
  | [], _, _ => rfl
  | _ :: rest, idx, s => by
      show ((assignCards P sp prob rest (idx + 1) _).1).length + 1 = rest.length + 1
      rw [assignCards_length P sp prob rest]

theorem assignCards_map_card_id (P : PRNG) (sp : Option SpreadDef) (prob : ℚ) :
    ∀ (l : List String) (idx : Nat) (s : P.σ),
      ((assignCards P sp prob l idx s).1).map DrawnCard.card_id = l
  | [], _, _ => rfl
  | cid :: rest, idx, s => by
      show (_serialize_drawn_card cid _ _ idx).card_id ::
        ((assignCards P sp prob rest (idx + 1) _).1).map DrawnCard.card_id = cid :: rest
      rw [serialize_card_id, assignCards_map_card_id P sp prob rest]

theorem assignCards_map_index (P : PRNG) (sp : Option SpreadDef) (prob : ℚ) :
    ∀ (l : List String) (idx : Nat) (s : P.σ),
      ((assignCards P sp prob l idx s).1).map DrawnCard.index = List.range' idx l.length
  | [], _, _ => rfl
  | cid :: rest, idx, s => by
      show (_serialize_drawn_card cid _ _ idx).index ::
        ((assignCards P sp prob rest (idx + 1) _).1).map DrawnCard.index =
        idx :: List.range' (idx + 1) rest.length
      rw [serialize_index, assignCards_map_index P sp prob rest]

theorem assignCards_map_position (P : PRNG) (sd : SpreadDef) (prob : ℚ) :
    ∀ (l : List String) (idx : Nat) (s : P.σ),
      ((assignCards P (some sd) prob l idx s).1).map DrawnCard.position =
        (List.range' idx l.length).map (fun i => sd.positions.get? i)
  | [], _, _ => rfl
  | cid :: rest, idx, s => by
      show (_serialize_drawn_card cid _ _ idx).position ::
        ((assignCards P (some sd) prob rest (idx + 1) _).1).map DrawnCard.position =
        sd.positions.get? idx :: (List.range' (idx + 1) rest.length).map (fun i => sd.positions.get? i)
      rw [serialize_position, assignCards_map_position P sd prob rest]
      rfl

/-- The defining equation of `assignCards` on a cons cell. -/
theorem assignCards_cons (P : PRNG) (sp : Option SpreadDef) (prob : ℚ)
    (cid : String) (rest : List String) (idx : Nat) (s : P.σ) :
    (assignCards P sp prob (cid :: rest) idx s).1 =
      _serialize_drawn_card cid
        (if (P.randFloat s).1 < prob then Orientation.reversed else Orientation.upright)
        (assignPos sp idx) idx ::
      (assignCards P sp prob rest (idx + 1) (P.randFloat s).2).1 := rfl

theorem assignCards_position_none (P : PRNG) (prob : ℚ) :
    ∀ (l : List String) (idx : Nat) (s : P.σ),
      ∀ c ∈ (assignCards P Option.none prob l idx s).1, c.position = Option.none
  | [], _, _ => by simp [assignCards]
  | cid :: rest, idx, s => by
      intro c hc
      rw [assignCards_cons] at hc
      rcases List.mem_cons.mp hc with h | h
      · subst h; exact serialize_position ..
      · exact assignCards_position_none P prob rest (idx + 1) _ c h

theorem assignCards_upright (P : PRNG) (hr : ∀ s, 0 ≤ (P.randFloat s).1)
    (sp : Option SpreadDef) :
    ∀ (l : List String) (idx : Nat) (s : P.σ),
      ∀ c ∈ (assignCards P sp 0 l idx s).1, c.orientation = Orientation.upright
  | [], _, _ => by simp [assignCards]
  | cid :: rest, idx, s => by
    intro c hc
    rw [assignCards_cons] at hc
    rcases List.mem_cons.mp hc with h | h
    · subst h
      rw [serialize_orientation, if_neg (not_lt.mpr (hr s))]
    · exact assignCards_upright P hr sp rest (idx + 1) _ c h

theorem assignCards_reversed (P : PRNG) (hr : ∀ s, (P.randFloat s).1 < 1)
    (sp : Option SpreadDef) :
    ∀ (l : List String) (idx : Nat) (s : P.σ),
      ∀ c ∈ (assignCards P sp 1 l idx s).1, c.orientation = Orientation.reversed
  | [], _, _ => by simp [assignCards]
  | cid :: rest, idx, s => by
    intro c hc
    rw [assignCards_cons] at hc
    rcases List.mem_cons.mp hc with h | h
    · subst h
      rw [serialize_orientation, if_pos (hr s)]
    · exact assignCards_reversed P hr sp rest (idx + 1) _ c h

theorem assignCards_resolved (P : PRNG) (sp : Option SpreadDef) (prob : ℚ) :
    ∀ (l : List String) (idx : Nat) (s : P.σ),
      (∀ cid ∈ l, cid ∈ CARD_REGISTRY.map CardDef.id) →
      ∀ c ∈ (assignCards P sp prob l idx s).1,
        ∃ cd, cd ∈ CARD_REGISTRY ∧ c.card_id = cd.id ∧ c.card_name = cd.name ∧
          c.suit = cd.suit ∧ c.rank = cd.rank
  | [], _, _ => by simp [assignCards]
  | cid :: rest, idx, s => by
    intro hmem c hc
    rw [assignCards_cons] at hc
    rcases List.mem_cons.mp hc with h | h
    · subst h
      exact serialize_resolved cid _ _ idx (hmem cid (List.mem_cons_self cid rest))
    · exact assignCards_resolved P sp prob rest (idx + 1) _
        (fun cid0 h0 => hmem cid0 (List.mem_cons_of_mem cid h0)) c h

/-! ## draw_cards inversion and success lemmas -/

theorem build_deck_ok {dt : String} {deck : List String}
    (h : build_deck dt = Except.ok deck) :
    dt = "rws" ∧ deck = CARD_REGISTRY.map CardDef.id := by
  unfold build_deck at h
  split at h
  · cases h
  · rename_i hne
    cases h
    exact ⟨not_not.mp hne, rfl⟩

theorem resolveSpread_some_err {spid : String} {er : TarotError}
    (hg : get_spread spid = Except.error er) (n : Int) :
    resolveSpread (some spid) n = Except.error er := by
  show (match get_spread spid with
        | Except.error e => Except.error e
        | Except.ok sd =>
            if (sd.positions.length : Int) ≠ n then
              Except.error (TarotError.invalidSpread
                ("Spread " ++ sq ++ spid ++ sq ++ " expects " ++
                 toString sd.positions.length ++ " cards, got " ++ toString n))
            else Except.ok (some sd)) = Except.error er
  rw [hg]

theorem resolveSpread_some_ok {spid : String} {sd : SpreadDef}
    (hg : get_spread spid = Except.ok sd) (n : Int) :
    resolveSpread (some spid) n =
      if (sd.positions.length : Int) ≠ n then
        Except.error (TarotError.invalidSpread
          ("Spread " ++ sq ++ spid ++ sq ++ " expects " ++
           toString sd.positions.length ++ " cards, got " ++ toString n))
      else Except.ok (some sd) := by
  show (match get_spread spid with
        | Except.error e => Except.error e
        | Except.ok sd =>
            if (sd.positions.length : Int) ≠ n then
              Except.error (TarotError.invalidSpread
                ("Spread " ++ sq ++ spid ++ sq ++ " expects " ++
                 toString sd.positions.length ++ " cards, got " ++ toString n))
            else Except.ok (some sd)) = _
  rw [hg]

theorem resolveSpread_ok {sp : Option String} {n : Int} {sdef : Option SpreadDef}
    (h : resolveSpread sp n = Except.ok sdef) :
    (sp = Option.none ∧ sdef = Option.none) ∨
    (∃ spid sd, sp = some spid ∧ sdef = some sd ∧ get_spread spid = Except.ok sd ∧
      (sd.positions.length : Int) = n) := by
  cases sp with
  | none =>
      unfold resolveSpread at h
      cases h
      exact Or.inl ⟨rfl, rfl⟩
  | some spid =>
      cases hg : get_spread spid with
      | error er =>
          rw [resolveSpread_some_err hg] at h
          cases h
      | ok sd =>
          rw [resolveSpread_some_ok hg] at h
          split at h
          · cases h
          rename_i hlen
          cases h
          exact Or.inr ⟨spid, sd, rfl, rfl, hg, not_not.mp hlen⟩

theorem norm_seed_ok_of_seedOk {sd : PyVal} (hs : sd.seedOk = true) :
    ∃ norm, _norm_seed sd = Except.ok norm := by
  cases sd with
  | none => exact ⟨Option.none, rfl⟩
  | int m => exact ⟨some m, rfl⟩
  | str s => exact ⟨_, rfl⟩
  | float q => simp [PyVal.seedOk] at hs

theorem deck_len_int : ((CARD_REGISTRY.map CardDef.id).length : Int) = 78 := by
  rw [List.length_map, card_registry_length]
  rfl

/-- Inversion of a successful `draw_cards` call: the inputs passed every
validation and the result is the assembled record over the shuffled deck. -/
theorem draw_cards_ok_inv {P : PRNG} {e : P.σ} {n : Int} {sp : Option String}
    {sd : PyVal} {prob : ℚ} {dt : String} {r : DrawResult}
    (h : draw_cards P e n sp sd prob dt = Except.ok r) :
    ∃ (sdef : Option SpreadDef) (norm : Option Int),
      resolveSpread sp n = Except.ok sdef ∧
      _norm_seed sd = Except.ok norm ∧
      dt = "rws" ∧ 1 ≤ n ∧ n ≤ 78 ∧ 0 ≤ prob ∧ prob ≤ 1 ∧
      r = { seed := norm, spread := sdef.map SpreadDef.id, deck_type := dt,
            num_cards := n, orientation_prob := prob,
            cards := (assignCards P sdef prob
              (((_fisher_yates_shuffle P (CARD_REGISTRY.map CardDef.id) (seedRng P e norm)).1).take n.toNat) 0
              (_fisher_yates_shuffle P (CARD_REGISTRY.map CardDef.id) (seedRng P e norm)).2).1 } := by
  unfold draw_cards at h
  split at h
  · cases h
  rename_i hn
  split at h
  · cases h
  rename_i hprob
  split at h
  · cases h
  rename_i deck hdeck
  obtain ⟨hdt, hdeckeq⟩ := build_deck_ok hdeck
  subst hdeckeq
  split at h
  · cases h
  rename_i hlen
  split at h
  · cases h
  rename_i sdef hsp
  split at h
  · cases h
  rename_i norm hnorm
  cases h
  have hp : 0 ≤ prob ∧ prob ≤ 1 := not_not.mp hprob
  refine ⟨sdef, norm, hsp, hnorm, hdt, by omega, ?_, hp.1, hp.2, rfl⟩
  rw [deck_len_int] at hlen
  omega

/-- A call with valid parameters succeeds. -/
theorem draw_cards_ok_of_valid (P : PRNG) (e : P.σ) (n : Int) (sp : Option String)
    (sd : PyVal) (prob : ℚ) (hn : 1 ≤ n) (h78 : n ≤ 78) (hs : sd.seedOk = true)
    (h0 : 0 ≤ prob) (h1 : prob ≤ 1)
    (hsp : ∃ sdef, resolveSpread sp n = Except.ok sdef) :
    ∃ r, draw_cards P e n sp sd prob "rws" = Except.ok r := by
  obtain ⟨sdef, hspd⟩ := hsp
  obtain ⟨norm, hnorm⟩ := norm_seed_ok_of_seedOk hs
  refine ⟨{ seed := norm, spread := sdef.map SpreadDef.id, deck_type := "rws",
            num_cards := n, orientation_prob := prob,
            cards := (assignCards P sdef prob
              (((_fisher_yates_shuffle P (CARD_REGISTRY.map CardDef.id)
                  (seedRng P e norm)).1).take n.toNat) 0
              (_fisher_yates_shuffle P (CARD_REGISTRY.map CardDef.id)
                (seedRng P e norm)).2).1 }, ?_⟩
  unfold draw_cards
  rw [if_neg (by omega : ¬n ≤ 0), if_neg (not_not_intro ⟨h0, h1⟩)]
  split
  · rename_i er her
    rw [show build_deck "rws" = Except.ok (CARD_REGISTRY.map CardDef.id) from rfl] at her
    cases her
  rename_i deck hdeck
  obtain ⟨-, hdeckeq⟩ := build_deck_ok hdeck
  subst hdeckeq
  rw [if_neg (by rw [deck_len_int]; omega :
    ¬(((CARD_REGISTRY.map CardDef.id).length : Int) < n))]
  split
  · rename_i er her
    rw [hspd] at her
    cases her
  rename_i sdef0 hsp0
  rw [hspd] at hsp0
  injection hsp0 with hsp0
  subst hsp0
  split
  · rename_i er her
    rw [hnorm] at her
    cases her
  rename_i norm0 hnorm0
  rw [hnorm] at hnorm0
  injection hnorm0 with hnorm0
  subst hnorm0
  rfl

/-! ## Byte-range lemmas for the seed hash -/

theorem natToBytesBE_lt : ∀ (k v : Nat), ∀ b ∈ natToBytesBE k v, b < 256
  | 0, _ => by simp [natToBytesBE]
  | k + 1, v => by
      intro b hb
      unfold natToBytesBE at hb
      rcases List.mem_append.mp hb with h | h
      · exact natToBytesBE_lt k (v / 256) b h
      · rw [List.mem_singleton.mp h]
        exact Nat.mod_lt _ (by omega)

theorem sha256_bytes_lt (msg : List Nat) : ∀ b ∈ sha256 msg, b < 256 := by
  intro b hb
  unfold sha256 at hb
  rcases List.mem_flatMap.mp hb with ⟨w, _, hw⟩
  exact natToBytesBE_lt 4 w b hw

theorem foldl_byte_bound :
    ∀ (bs : List Nat) (acc : Nat), (∀ b ∈ bs, b < 256) →
      bs.foldl (fun a b => a * 256 + b) acc < (acc + 1) * 256 ^ bs.length
  | [], acc, _ => by simp
  | b :: bs, acc, hb => by
      have hstep := foldl_byte_bound bs (acc * 256 + b)
        (fun x hx => hb x (List.mem_cons_of_mem b hx))
      have hblt : b < 256 := hb b (List.mem_cons_self b bs)
      calc (b :: bs).foldl (fun a c => a * 256 + c) acc
          = bs.foldl (fun a c => a * 256 + c) (acc * 256 + b) := rfl
        _ < (acc * 256 + b + 1) * 256 ^ bs.length := hstep
        _ ≤ ((acc + 1) * 256) * 256 ^ bs.length := by
            have : acc * 256 + b + 1 ≤ (acc + 1) * 256 := by omega
            exact Nat.mul_le_mul_right _ this
        _ = (acc + 1) * 256 ^ (bs.length + 1) := by ring

theorem intFromBytesBE_lt {bs : List Nat} (hb : ∀ b ∈ bs, b < 256) :
    intFromBytesBE bs < 256 ^ bs.length := by
  have := foldl_byte_bound bs 0 hb
  simpa [intFromBytesBE] using this

/-- The normalized text seed always lies below 2^64. -/
theorem text_seed_lt (s : String) :
    intFromBytesBE ((sha256 (utf8Bytes s)).take 8) < 2 ^ 64 := by
  have hb : ∀ b ∈ (sha256 (utf8Bytes s)).take 8, b < 256 :=
    fun b hb => sha256_bytes_lt (utf8Bytes s) b (List.mem_of_mem_take hb)
  have hlt := intFromBytesBE_lt hb
  have hlen : ((sha256 (utf8Bytes s)).take 8).length ≤ 8 := by
    simp [List.length_take]
  calc intFromBytesBE ((sha256 (utf8Bytes s)).take 8)
      < 256 ^ ((sha256 (utf8Bytes s)).take 8).length := hlt
    _ ≤ 256 ^ 8 := Nat.pow_le_pow_right (by omega) hlen
    _ = 2 ^ 64 := by norm_num

/-! ## Position lookup over ranges -/

theorem range'_map_get?_aux {α : Type} :
    ∀ (ys pre : List α),
      (List.range' pre.length ys.length).map (fun i => (pre ++ ys).get? i) = ys.map some
  | [], _ => rfl
  | y :: ys, pre => by
      have hhead : (pre ++ y :: ys).get? pre.length = some y := by
        rw [List.get?_append_right (Nat.le_refl _)]
        simp
      have htail := range'_map_get?_aux ys (pre ++ [y])
      rw [List.length_append] at htail
      simp only [List.length_singleton] at htail
      rw [List.append_assoc, List.singleton_append] at htail
      show (List.range' pre.length (ys.length + 1)).map (fun i => (pre ++ y :: ys).get? i) =
        some y :: ys.map some
      rw [List.range'_succ, List.map_cons, hhead, htail]

theorem range_map_get? {α : Type} (ys : List α) :
    (List.range ys.length).map (fun i => ys.get? i) = ys.map some := by
  have := range'_map_get?_aux ys []
  simpa [List.range_eq_range'] using this

/-! ## Concrete instances and registry facts -/

theorem constPRNG_wf : constPRNG.WF := by
  constructor
  · intro s lo hi h
    exact ⟨Nat.le_refl lo, h⟩
  · intro s
    refine ⟨le_refl 0, ?_⟩
    show (0 : ℚ) < 1
    norm_num

theorem boolPRNG_wf : boolPRNG.WF := by
  constructor
  · intro s lo hi h
    cases s
    · exact ⟨Nat.le_refl lo, h⟩
    · exact ⟨h, Nat.le_refl hi⟩
  · intro s
    cases s
    · refine ⟨le_refl 0, ?_⟩
      show (0 : ℚ) < 1
      norm_num
    · refine ⟨?_, ?_⟩
      · show (0 : ℚ) ≤ 1 / 2
        norm_num
      · show (1 : ℚ) / 2 < 1
        norm_num

/-- The 78 card ids are pairwise distinct. -/
theorem deck_nodup : (CARD_REGISTRY.map CardDef.id).Nodup := by decide

/-- No registry entry carries the placeholder rank. -/
theorem registry_rank_ne : ∀ cd ∈ CARD_REGISTRY, cd.rank ≠ "?" := by decide

/-- The length of the truncated shuffle output. -/
theorem take_shuffled_length (P : PRNG) (rng : P.σ) {n : Int}
    (hn1 : 1 ≤ n) (hn78 : n ≤ 78) :
    (((_fisher_yates_shuffle P (CARD_REGISTRY.map CardDef.id) rng).1).take n.toNat).length
      = n.toNat := by
  rw [List.length_take]
  rw [(fisher_yates_perm P _ rng).length_eq, List.length_map, card_registry_length]
  omega

/-! ## Claim theorems -/

/-- C1: draw_cards is deterministic for any present seed (integer or text):
two calls with the same num_cards, spread, seed, orientation_prob and
deck_type agree exactly, whatever entropy the unseeded path would have
used in either call — same cards in the same order, same orientations,
same positions, same normalized seed field. -/
theorem C1_draw_determinism (P : PRNG) (e1 e2 : P.σ) (n : Int) (sp : Option String)
    (sd : PyVal) (prob : ℚ) (dt : String) (h : sd ≠ PyVal.none) :
    draw_cards P e1 n sp sd prob dt = draw_cards P e2 n sp sd prob dt := by
  cases sd with
  | none => exact absurd rfl h
  | int m => rfl
  | str s => rfl
  | float q => rfl

/-- Witness for C1 at a concrete input: a generator whose unseeded
behaviour depends on the entropy state still yields identical draws for
the integer seed 7 under two different entropy states. -/
theorem C1_witness :
    (PyVal.int 7 ≠ PyVal.none) ∧
    draw_cards boolPRNG true 3 Option.none (PyVal.int 7) (1 / 2) "rws" =
      draw_cards boolPRNG false 3 Option.none (PyVal.int 7) (1 / 2) "rws" :=
  ⟨by decide,
   C1_draw_determinism boolPRNG true false 3 Option.none (PyVal.int 7) (1 / 2) "rws"
     (by decide)⟩

/-- C2: seed normalization: `None` maps to the no-deterministic-seed
outcome, an integer passes through unchanged, a text seed maps to the
first 8 bytes of its UTF-8 SHA-256 digest read as a big-endian unsigned
integer (always below 2^64), and a value of any other type raises
`InvalidParameterError`. -/
theorem C2_norm_seed_contract :
    _norm_seed PyVal.none = Except.ok Option.none ∧
    (∀ n : Int, _norm_seed (PyVal.int n) = Except.ok (some n)) ∧
    (∀ s : String,
      _norm_seed (PyVal.str s) =
        Except.ok (some (Int.ofNat (intFromBytesBE ((sha256 (utf8Bytes s)).take 8)))) ∧
      intFromBytesBE ((sha256 (utf8Bytes s)).take 8) < 2 ^ 64) ∧
    (∀ q : ℚ, _norm_seed (PyVal.float q) =
      Except.error (TarotError.invalidParameter "seed must be int | str | None")) :=
  ⟨rfl, fun _ => rfl, fun s => ⟨rfl, text_seed_lt s⟩, fun _ => rfl⟩

/-- C3: the shuffle engine returns a permutation of its input (the input
itself is never mutated in this pure embedding); it is exactly the
application of its swap trace, which visits indices N-1 down to 1 in
strictly decreasing order and at index i swaps with a j drawn from the
inclusive range [0, i]; and `shuffle_deck` only ever returns permutations
of the deck. -/
theorem C3_fisher_yates (P : PRNG) (hwf : P.WF) (items : List String) (s : P.σ) :
    ((_fisher_yates_shuffle P items s).1).Perm items ∧
    (_fisher_yates_shuffle P items s).1 =
      applySwaps (fyTrace P (items.length - 1) items s) items ∧
    (fyTrace P (items.length - 1) items s).map Prod.fst = countdown (items.length - 1) ∧
    (∀ p ∈ fyTrace P (items.length - 1) items s, p.2 ≤ p.1) ∧
    List.Chain' (fun a b => b < a) ((fyTrace P (items.length - 1) items s).map Prod.fst) ∧
    (∀ (seedv : PyVal) (out : List String),
      shuffle_deck P s items seedv = Except.ok out → out.Perm items) := by
  refine ⟨fisher_yates_perm P items s, fyAux_eq_applySwaps P _ items s,
    fyTrace_map_fst P _ items s, fyTrace_snd_le P hwf _ items s, ?_, ?_⟩
  · rw [fyTrace_map_fst P _ items s]
    exact countdown_chain _
  · intro seedv out h
    unfold shuffle_deck at h
    split at h
    · cases h
    rename_i norm hm
    cases h
    exact fisher_yates_perm P items _

/-- Witness for C3 at a concrete input. -/
theorem C3_witness :
    constPRNG.WF ∧
    ((_fisher_yates_shuffle constPRNG ["a", "b", "c"] ()).1).Perm ["a", "b", "c"] :=
  ⟨constPRNG_wf, (C3_fisher_yates constPRNG constPRNG_wf ["a", "b", "c"] ()).1⟩

/-- C4: every successful draw has a count in 1..78 and contains exactly
`count` cards whose index fields are 0..count-1 in order, whose card ids
are pairwise distinct, and each of whose card ids belongs to the
78-identifier deck. -/
theorem C4_result_shape (P : PRNG) (e : P.σ) (n : Int) (sp : Option String)
    (sd : PyVal) (prob : ℚ) (dt : String) (r : DrawResult)
    (h : draw_cards P e n sp sd prob dt = Except.ok r) :
    1 ≤ n ∧ n ≤ 78 ∧
    r.cards.length = n.toNat ∧
    r.cards.map DrawnCard.index = List.range n.toNat ∧
    (r.cards.map DrawnCard.card_id).Nodup ∧
    ∀ c ∈ r.cards, c.card_id ∈ CARD_REGISTRY.map CardDef.id := by
  obtain ⟨sdef, norm, hsp, hnorm, hdt, hn1, hn78, hp0, hp1, hr⟩ := draw_cards_ok_inv h
  subst hr
  have hperm := fisher_yates_perm P (CARD_REGISTRY.map CardDef.id) (seedRng P e norm)
  have hpick :=
    (List.take_sublist n.toNat
      (_fisher_yates_shuffle P (CARD_REGISTRY.map CardDef.id) (seedRng P e norm)).1)
  have hmem : ∀ cid ∈ ((_fisher_yates_shuffle P (CARD_REGISTRY.map CardDef.id)
      (seedRng P e norm)).1).take n.toNat, cid ∈ CARD_REGISTRY.map CardDef.id :=
    fun cid hc => hperm.subset (hpick.subset hc)
  refine ⟨hn1, hn78, ?_, ?_, ?_, ?_⟩
  · rw [assignCards_length, take_shuffled_length P _ hn1 hn78]
  · rw [assignCards_map_index, take_shuffled_length P _ hn1 hn78, List.range_eq_range']
  · rw [assignCards_map_card_id]
    exact hpick.nodup (hperm.nodup_iff.mpr deck_nodup)
  · intro c hc
    have hmapid := assignCards_map_card_id P sdef prob
      (((_fisher_yates_shuffle P (CARD_REGISTRY.map CardDef.id) (seedRng P e norm)).1).take
        n.toNat) 0
      (_fisher_yates_shuffle P (CARD_REGISTRY.map CardDef.id) (seedRng P e norm)).2
    refine hmem _ ?_
    rw [← hmapid]
    exact List.mem_map_of_mem DrawnCard.card_id hc

/-- Witness for C4 at a concrete input. -/
theorem C4_witness :
    ∃ r, draw_cards constPRNG () 3 Option.none (PyVal.int 1) (1 / 2) "rws" = Except.ok r ∧
      r.cards.length = 3 ∧ r.cards.map DrawnCard.index = [0, 1, 2] ∧
      (r.cards.map DrawnCard.card_id).Nodup := by
  obtain ⟨r, hr⟩ := draw_cards_ok_of_valid constPRNG () 3 Option.none (PyVal.int 1) (1 / 2)
    (by omega) (by omega) rfl (by norm_num) (by norm_num) ⟨Option.none, rfl⟩
  have h := C4_result_shape constPRNG () 3 Option.none (PyVal.int 1) (1 / 2) "rws" r hr
  refine ⟨r, hr, h.2.2.1, ?_, h.2.2.2.2.1⟩
  rw [h.2.2.2.1]
  rfl

/-- C5: when a spread is used, the position of the card at index i is the
label of the spread at index i for every i; without a spread every position is
null. -/
theorem C5_spread_binding (P : PRNG) (e : P.σ) (n : Int) (sp : Option String)
    (sd : PyVal) (prob : ℚ) (dt : String) (r : DrawResult)
    (h : draw_cards P e n sp sd prob dt = Except.ok r) :
    (∀ spid, sp = some spid → ∃ sdef, get_spread spid = Except.ok sdef ∧
      r.cards.map DrawnCard.position = sdef.positions.map some) ∧
    (sp = Option.none → ∀ c ∈ r.cards, c.position = Option.none) := by
  obtain ⟨sdef, norm, hsp, hnorm, hdt, hn1, hn78, hp0, hp1, hr⟩ := draw_cards_ok_inv h
  subst hr
  constructor
  · intro spid hspid
    subst hspid
    rcases resolveSpread_ok hsp with ⟨hc, -⟩ | ⟨spid0, sdd, hspeq, hsdef, hg, hlen⟩
    · cases hc
    · injection hspeq with hspeq
      subst hspeq
      subst hsdef
      refine ⟨sdd, hg, ?_⟩
      show ((assignCards P (some sdd) prob _ 0 _).1).map DrawnCard.position = _
      rw [assignCards_map_position, take_shuffled_length P _ hn1 hn78]
      have hplen : sdd.positions.length = n.toNat := by omega
      rw [← hplen, ← List.range_eq_range', range_map_get?]
  · intro hnone
    subst hnone
    rcases resolveSpread_ok hsp with ⟨-, hsdef⟩ | ⟨spid0, sdd, hspeq, -, -, -⟩
    · subst hsdef
      exact assignCards_position_none P prob _ 0 _
    · cases hspeq

/-- Witness for C5 at a concrete input: a three_card draw carries the
past/present/future labels in order. -/
theorem C5_witness :
    ∃ r, draw_cards constPRNG () 3 (some "three_card") (PyVal.int 2) (1 / 2) "rws" =
        Except.ok r ∧
      r.cards.map DrawnCard.position = [some "past", some "present", some "future"] := by
  obtain ⟨r, hr⟩ := draw_cards_ok_of_valid constPRNG () 3 (some "three_card") (PyVal.int 2)
    (1 / 2) (by omega) (by omega) rfl (by norm_num) (by norm_num) ⟨_, rfl⟩
  obtain ⟨sdef, hg, hpos⟩ :=
    (C5_spread_binding constPRNG () 3 (some "three_card") (PyVal.int 2) (1 / 2) "rws" r hr).1
      "three_card" rfl
  have hsd : sdef = { id := "three_card",
                      name := "Three Card (Past / Present / Future)",
                      positions := ["past", "present", "future"] } := by
    have h2 : get_spread "three_card" =
        Except.ok { id := "three_card",
                    name := "Three Card (Past / Present / Future)",
                    positions := ["past", "present", "future"] } := rfl
    rw [h2] at hg
    injection hg with hg
    exact hg.symm
  subst hsd
  exact ⟨r, hr, hpos⟩

/-- C6: boundary validation: count 78 with no spread on the supported deck
succeeds with all 78 cards in shuffled order; count 0 or 79 raises
`InvalidParameterError`; orientation probability -0.01 or 1.01 raises
`InvalidParameterError`; the embedding is a pure function, so no state is
ever mutated. -/
theorem C6_boundaries (P : PRNG) (e : P.σ) (sd : PyVal) (prob : ℚ)
    (hs : sd.seedOk = true) (h0 : 0 ≤ prob) (h1 : prob ≤ 1) :
    (∃ r, draw_cards P e 78 Option.none sd prob "rws" = Except.ok r ∧
      r.cards.length = 78 ∧
      (r.cards.map DrawnCard.card_id).Perm (CARD_REGISTRY.map CardDef.id)) ∧
    (∀ sp dt, ∃ m, draw_cards P e 0 sp sd prob dt =
      Except.error (TarotError.invalidParameter m)) ∧
    (∃ m, draw_cards P e 79 Option.none sd prob "rws" =
      Except.error (TarotError.invalidParameter m)) ∧
    (∀ n : Int, 1 ≤ n → ∀ sp dt, ∃ m, draw_cards P e n sp sd (-1 / 100) dt =
      Except.error (TarotError.invalidParameter m)) ∧
    (∀ n : Int, 1 ≤ n → ∀ sp dt, ∃ m, draw_cards P e n sp sd (101 / 100) dt =
      Except.error (TarotError.invalidParameter m)) := by
  refine ⟨?_, ?_, ?_, ?_, ?_⟩
  · obtain ⟨r, hr⟩ := draw_cards_ok_of_valid P e 78 Option.none sd prob
      (by omega) (by omega) hs h0 h1 ⟨Option.none, rfl⟩
    obtain ⟨sdef, norm, hsp, hnorm, -, hn1, hn78, -, -, hrr⟩ := draw_cards_ok_inv hr
    subst hrr
    have hlen78 : ((_fisher_yates_shuffle P (CARD_REGISTRY.map CardDef.id)
        (seedRng P e norm)).1).length = 78 := by
      rw [(fisher_yates_perm P _ (seedRng P e norm)).length_eq, List.length_map,
        card_registry_length]
    have htake : ((_fisher_yates_shuffle P (CARD_REGISTRY.map CardDef.id)
        (seedRng P e norm)).1).take (78 : Int).toNat =
        (_fisher_yates_shuffle P (CARD_REGISTRY.map CardDef.id) (seedRng P e norm)).1 :=
      List.take_of_length_le (by rw [hlen78]; decide)
    refine ⟨_, hr, ?_, ?_⟩
    · rw [assignCards_length, htake, hlen78]
    · rw [assignCards_map_card_id, htake]
      exact fisher_yates_perm P _ (seedRng P e norm)
  · intro sp dt
    refine ⟨"num_cards must be a positive integer", ?_⟩
    unfold draw_cards
    rw [if_pos (by omega : (0 : Int) ≤ 0)]
  · refine ⟨"num_cards cannot exceed deck size (78); got " ++ toString (79 : Int), ?_⟩
    unfold draw_cards
    rw [if_neg (by omega : ¬(79 : Int) ≤ 0), if_neg (not_not_intro ⟨h0, h1⟩)]
    split
    · rename_i er her
      rw [show build_deck "rws" = Except.ok (CARD_REGISTRY.map CardDef.id) from rfl] at her
      cases her
    rename_i deck hdeck
    obtain ⟨-, hdeckeq⟩ := build_deck_ok hdeck
    subst hdeckeq
    rw [if_pos (by rw [deck_len_int]; norm_num :
      ((CARD_REGISTRY.map CardDef.id).length : Int) < 79)]
  · intro n hn sp dt
    refine ⟨"orientation_prob must be within [0.0, 1.0]", ?_⟩
    unfold draw_cards
    rw [if_neg (by omega : ¬n ≤ 0),
      if_pos (by norm_num : ¬(0 ≤ (-1 / 100 : ℚ) ∧ (-1 / 100 : ℚ) ≤ 1))]
  · intro n hn sp dt
    refine ⟨"orientation_prob must be within [0.0, 1.0]", ?_⟩
    unfold draw_cards
    rw [if_neg (by omega : ¬n ≤ 0),
      if_pos (by norm_num : ¬(0 ≤ (101 / 100 : ℚ) ∧ (101 / 100 : ℚ) ≤ 1))]

/-- Witness for C6 at a concrete input. -/
theorem C6_witness :
    (PyVal.int 0).seedOk = true ∧ (0 : ℚ) ≤ 1 / 2 ∧ (1 / 2 : ℚ) ≤ 1 ∧
    (∃ m, draw_cards constPRNG () 0 Option.none (PyVal.int 0) (1 / 2) "rws" =
      Except.error (TarotError.invalidParameter m)) ∧
    (∃ m, draw_cards constPRNG () 79 Option.none (PyVal.int 0) (1 / 2) "rws" =
      Except.error (TarotError.invalidParameter m)) ∧
    (∃ r, draw_cards constPRNG () 78 Option.none (PyVal.int 0) (1 / 2) "rws" = Except.ok r ∧
      r.cards.length = 78 ∧
      (r.cards.map DrawnCard.card_id).Perm (CARD_REGISTRY.map CardDef.id)) := by
  have h := C6_boundaries constPRNG () (PyVal.int 0) (1 / 2) rfl (by norm_num) (by norm_num)
  exact ⟨rfl, by norm_num, by norm_num, h.2.1 Option.none "rws", h.2.2.1, h.1⟩

/-- C7: orientation extremes: with a well-formed generator, probability 0.0
yields only upright cards and probability 1.0 yields only reversed cards,
for every seed and count (each per-card uniform draw in [0,1) is compared
strictly against the probability). -/
theorem C7_orientation_extremes (P : PRNG) (hwf : P.WF) :
    (∀ (e : P.σ) (n : Int) (sp : Option String) (sd : PyVal) (dt : String) (r : DrawResult),
      draw_cards P e n sp sd 0 dt = Except.ok r →
        ∀ c ∈ r.cards, c.orientation = Orientation.upright) ∧
    (∀ (e : P.σ) (n : Int) (sp : Option String) (sd : PyVal) (dt : String) (r : DrawResult),
      draw_cards P e n sp sd 1 dt = Except.ok r →
        ∀ c ∈ r.cards, c.orientation = Orientation.reversed) := by
  constructor
  · intro e n sp sd dt r h c hc
    obtain ⟨sdef, norm, -, -, -, -, -, -, -, hr⟩ := draw_cards_ok_inv h
    subst hr
    exact assignCards_upright P (fun s => (hwf.2 s).1) sdef _ 0 _ c hc
  · intro e n sp sd dt r h c hc
    obtain ⟨sdef, norm, -, -, -, -, -, -, -, hr⟩ := draw_cards_ok_inv h
    subst hr
    exact assignCards_reversed P (fun s => (hwf.2 s).2) sdef _ 0 _ c hc

/-- Witness for C7 at a concrete input. -/
theorem C7_witness :
    constPRNG.WF ∧
    ∃ r, draw_cards constPRNG () 2 Option.none (PyVal.int 3) 0 "rws" = Except.ok r ∧
      ∀ c ∈ r.cards, c.orientation = Orientation.upright := by
  obtain ⟨r, hr⟩ := draw_cards_ok_of_valid constPRNG () 2 Option.none (PyVal.int 3) 0
    (by omega) (by omega) rfl (by norm_num) (by norm_num) ⟨Option.none, rfl⟩
  exact ⟨constPRNG_wf, r, hr,
    (C7_orientation_extremes constPRNG constPRNG_wf).1 () 2 Option.none (PyVal.int 3)
      "rws" r hr⟩

/-- C8 counterexample: the unknown-spread failure and the count-mismatch
failure carry the same error class (`InvalidSpreadError`), so they are not
two distinguishable error kinds. -/
theorem C8_counterexample :
    get_spread "no_such_spread" =
      Except.error (TarotError.invalidSpread
        ("Spread " ++ sq ++ "no_such_spread" ++ sq ++ " is not registered.")) ∧
    draw_cards constPRNG () 5 (some "three_card") (PyVal.int 0) (1 / 2) "rws" =
      Except.error (TarotError.invalidSpread
        ("Spread " ++ sq ++ "three_card" ++ sq ++ " expects 3 cards, got 5")) ∧
    (TarotError.invalidSpread
      ("Spread " ++ sq ++ "no_such_spread" ++ sq ++ " is not registered.")).kind =
    (TarotError.invalidSpread
      ("Spread " ++ sq ++ "three_card" ++ sq ++ " expects 3 cards, got 5")).kind := by
  refine ⟨rfl, ?_, rfl⟩
  unfold draw_cards
  rw [if_neg (by omega : ¬(5 : Int) ≤ 0),
    if_neg (not_not_intro ⟨by norm_num, by norm_num⟩ :
      ¬¬(0 ≤ (1 / 2 : ℚ) ∧ (1 / 2 : ℚ) ≤ 1))]
  split
  · rename_i er her
    rw [show build_deck "rws" = Except.ok (CARD_REGISTRY.map CardDef.id) from rfl] at her
    cases her
  rename_i deck hdeck
  obtain ⟨-, hdeckeq⟩ := build_deck_ok hdeck
  subst hdeckeq
  rw [if_neg (by rw [deck_len_int]; norm_num :
    ¬(((CARD_REGISTRY.map CardDef.id).length : Int) < 5))]
  rw [show resolveSpread (some "three_card") 5 = Except.error (TarotError.invalidSpread
    ("Spread " ++ sq ++ "three_card" ++ sq ++ " expects 3 cards, got 5")) from rfl]

/-- C8 (amended): an unknown spread id and a position-count mismatch both
fail with the single `InvalidSpreadError` class — the same error kind,
distinguishable only by message. -/
theorem C8_same_error_class (P : PRNG) (e : P.σ) (sd : PyVal) (prob : ℚ)
    (spid : String) (hun : assocLookup SPREAD_REGISTRY spid = Option.none)
    (h0 : 0 ≤ prob) (h1 : prob ≤ 1) :
    (∃ m, get_spread spid = Except.error (TarotError.invalidSpread m)) ∧
    (∃ m, draw_cards P e 5 (some "three_card") sd prob "rws" =
      Except.error (TarotError.invalidSpread m)) ∧
    (∀ m1 m2, (TarotError.invalidSpread m1).kind = (TarotError.invalidSpread m2).kind) := by
  refine ⟨⟨"Spread " ++ sq ++ spid ++ sq ++ " is not registered.", ?_⟩,
    ⟨"Spread " ++ sq ++ "three_card" ++ sq ++ " expects 3 cards, got 5", ?_⟩,
    fun m1 m2 => rfl⟩
  · unfold get_spread
    rw [hun]
  · unfold draw_cards
    rw [if_neg (by omega : ¬(5 : Int) ≤ 0), if_neg (not_not_intro ⟨h0, h1⟩)]
    split
    · rename_i er her
      rw [show build_deck "rws" = Except.ok (CARD_REGISTRY.map CardDef.id) from rfl] at her
      cases her
    rename_i deck hdeck
    obtain ⟨-, hdeckeq⟩ := build_deck_ok hdeck
    subst hdeckeq
    rw [if_neg (by rw [deck_len_int]; norm_num :
      ¬(((CARD_REGISTRY.map CardDef.id).length : Int) < 5))]
    rw [show resolveSpread (some "three_card") 5 = Except.error (TarotError.invalidSpread
      ("Spread " ++ sq ++ "three_card" ++ sq ++ " expects 3 cards, got 5")) from rfl]

/-- Witness for C8 at a concrete input. -/
theorem C8_witness :
    assocLookup SPREAD_REGISTRY "no_such_spread" = Option.none ∧
    (0 : ℚ) ≤ 1 / 2 ∧ (1 / 2 : ℚ) ≤ 1 ∧
    (∃ m, get_spread "no_such_spread" = Except.error (TarotError.invalidSpread m)) ∧
    (∃ m, draw_cards constPRNG () 5 (some "three_card") (PyVal.int 0) (1 / 2) "rws" =
      Except.error (TarotError.invalidSpread m)) := by
  have h := C8_same_error_class constPRNG () (PyVal.int 0) (1 / 2) "no_such_spread" rfl
    (by norm_num) (by norm_num)
  exact ⟨rfl, by norm_num, by norm_num, h.1, h.2.1⟩

/-- C9 counterexample: the stored labels of the 10-position spread differ from
the hyphenated names the claim lists (e.g. index 2 holds "subconscious",
not "subconscious-influence"). -/
theorem C9_counterexample :
    ¬ ((assocLookup SPREAD_REGISTRY "celtic_cross").map SpreadDef.positions =
      some ["situation", "challenge", "subconscious-influence", "recent-past",
            "conscious-goal", "near-future", "self", "environment",
            "hopes-and-fears", "outcome"]) := by decide

/-- C9 (amended): the registry holds exactly four spreads with position
counts 1, 3, 5 and 10; three_card is past/present/future; five_card is
issue/action/obstacle/resource/outcome; celtic_cross is situation,
challenge, subconscious, past, conscious, near_future, self, environment,
hopes_fears, outcome, in that order. -/
theorem C9_spread_registry :
    SPREAD_REGISTRY.map Prod.fst = ["single", "three_card", "five_card", "celtic_cross"] ∧
    list_spreads.map (fun spr => spr.positions.length) = [1, 3, 5, 10] ∧
    (assocLookup SPREAD_REGISTRY "three_card").map SpreadDef.positions =
      some ["past", "present", "future"] ∧
    (assocLookup SPREAD_REGISTRY "five_card").map SpreadDef.positions =
      some ["issue", "action", "obstacle", "resource", "outcome"] ∧
    (assocLookup SPREAD_REGISTRY "celtic_cross").map SpreadDef.positions =
      some ["situation", "challenge", "subconscious", "past", "conscious",
            "near_future", "self", "environment", "hopes_fears", "outcome"] := by
  decide

/-- C10: the placeholder fallback of `_serialize_drawn_card` is unreachable
through `draw_cards`: every id of the built deck resolves in
`CARD_ID_INDEX`, and every card of a successful draw carries the
registry name, suit and rank for its id — never the placeholder rank
"?". -/
theorem C10_no_placeholder (P : PRNG) (e : P.σ) (n : Int) (sp : Option String)
    (sd : PyVal) (prob : ℚ) (dt : String) :
    (∀ ids, build_deck "rws" = Except.ok ids →
      ∀ cid ∈ ids, (CARD_ID_INDEX cid).isSome = true) ∧
    (∀ r, draw_cards P e n sp sd prob dt = Except.ok r → ∀ c ∈ r.cards,
      ∃ cd, cd ∈ CARD_REGISTRY ∧ c.card_id = cd.id ∧ c.card_name = cd.name ∧
        c.suit = cd.suit ∧ c.rank = cd.rank ∧ c.rank ≠ "?") := by
  constructor
  · intro ids hids cid hcid
    obtain ⟨-, heq⟩ := build_deck_ok hids
    subst heq
    obtain ⟨k, hk⟩ := dictIndex_resolves hcid
    show (dictIndex CARD_REGISTRY cid).isSome = true
    rw [hk]
    rfl
  · intro r h c hc
    obtain ⟨sdef, norm, -, -, -, hn1, hn78, -, -, hr⟩ := draw_cards_ok_inv h
    subst hr
    have hperm := fisher_yates_perm P (CARD_REGISTRY.map CardDef.id) (seedRng P e norm)
    have hmem : ∀ cid ∈ ((_fisher_yates_shuffle P (CARD_REGISTRY.map CardDef.id)
        (seedRng P e norm)).1).take n.toNat, cid ∈ CARD_REGISTRY.map CardDef.id :=
      fun cid hcid => hperm.subset ((List.take_sublist _ _).subset hcid)
    obtain ⟨cd, hcd, h1, h2, h3, h4⟩ := assignCards_resolved P sdef prob _ 0 _ hmem c hc
    refine ⟨cd, hcd, h1, h2, h3, h4, ?_⟩
    rw [h4]
    exact registry_rank_ne cd hcd

/-- Witness for C10 at a concrete input. -/
theorem C10_witness :
    ∃ r, draw_cards constPRNG () 1 Option.none (PyVal.int 4) (1 / 2) "rws" = Except.ok r ∧
      ∀ c ∈ r.cards, c.rank ≠ "?" := by
  obtain ⟨r, hr⟩ := draw_cards_ok_of_valid constPRNG () 1 Option.none (PyVal.int 4) (1 / 2)
    (by omega) (by omega) rfl (by norm_num) (by norm_num) ⟨Option.none, rfl⟩
  refine ⟨r, hr, fun c hc => ?_⟩
  obtain ⟨cd, -, -, -, -, -, h7⟩ :=
    (C10_no_placeholder constPRNG () 1 Option.none (PyVal.int 4) (1 / 2) "rws").2 r hr c hc
  exact h7

end TarotCore
